import Mathlib

/-!
Verification development for the prowlerdash repository.

The definitions below are a shallow embedding of the server-side logic:
`DatabaseStorage` (asset queries, asset statistics, bulk asset replacement,
prowler-configuration upsert/lookup, user lookups/creation),
`ProwlerService.mapStatus` / `mapSeverity`, and the relevant Express route
handlers (`/api/register`, `/api/users`, `/api/assets/sync`, and the
responses that strip password hashes).  The relational store is modelled as
an in-memory list of rows; timestamps are naturals (milliseconds since
epoch).  The `@shared/schema` table definitions are not part of the
available sources, so record shapes follow the columns actually used by the
server code and the data-model section of the design document.
-/

/-- Asset status enumeration: `compliant | non-compliant | warning | unknown`. -/
inductive AssetStatus
  | compliant
  | nonCompliant
  | warning
  | unknown
deriving DecidableEq, Repr

/-- Severity enumeration: `critical | high | medium | low`. -/
inductive Severity
  | critical
  | high
  | medium
  | low
deriving DecidableEq, Repr

/-- Textual form of an asset status, as stored in the database enum column. -/
def statusText : AssetStatus → String
  | .compliant => "compliant"
  | .nonCompliant => "non-compliant"
  | .warning => "warning"
  | .unknown => "unknown"

/-- Textual form of a severity, as stored in the database enum column. -/
def severityText : Severity → String
  | .critical => "critical"
  | .high => "high"
  | .medium => "medium"
  | .low => "low"

/-- One cached asset row.  Fields follow the columns used by
`DatabaseStorage.getAssets` / `getAssetStats` / `upsertAssets`:
owning configuration id, external resource id and name, free-text resource
type, optional region, status, optional severity, optional last-checked
timestamp and the row's last-updated timestamp. -/
structure Asset where
  configurationId : String
  resourceId : String
  resourceName : String
  resourceType : String
  region : Option String
  status : AssetStatus
  severity : Option Severity
  lastCheckedAt : Option Nat
  updatedAt : Nat
deriving DecidableEq, Repr

/-- Does `small` occur as a leading segment of `big`? (character lists) -/
def leadsCL : List Char → List Char → Bool
  | [], _ => true
  | _ :: _, [] => false
  | a :: as, b :: bs => a == b && leadsCL as bs

/-- Does `needle` occur as a contiguous segment of `hay`? (character lists) -/
def segmentCL : List Char → List Char → Bool
  | needle, [] => needle.isEmpty
  | needle, c :: cs => leadsCL needle (c :: cs) || segmentCL needle cs

/-- JavaScript `hay.includes(needle)`: substring containment on strings. -/
def containsSub (hay needle : String) : Bool :=
  segmentCL needle.toList hay.toList

/-- JavaScript `s.toLowerCase()`: lower-case every character. -/
def lowerStr (s : String) : String :=
  String.mk (s.toList.map Char.toLower)

/-- Is the character trimmable whitespace? -/
def isWSChar (c : Char) : Bool :=
  c == ' ' || c == '\t' || c == '\n' || c == '\r'

/-- JavaScript `s.trim()` / zod `.trim()`: strip leading and trailing
whitespace. -/
def trimStr (s : String) : String :=
  String.mk (((s.toList.dropWhile isWSChar).reverse.dropWhile isWSChar).reverse)

/-- Split a character list at every occurrence of a separator. -/
def splitOnCL (sep : Char) : List Char → List (List Char)
  | [] => [[]]
  | x :: xs =>
    if x == sep then [] :: splitOnCL sep xs
    else
      match splitOnCL sep xs with
      | [] => [[x]]
      | y :: ys => (x :: y) :: ys

/-- The optional filter record accepted by `DatabaseStorage.getAssets`:
`resourceType`, `status`, `severity`, `search`, all optional. -/
structure AssetFilters where
  resourceType : Option String := none
  status : Option String := none
  severity : Option String := none
  search : Option String := none
deriving DecidableEq, Repr

/-- JavaScript truthiness of an optional string (`if (filters?.x)`):
present and non-empty. -/
def present : Option String → Bool
  | none => false
  | some s => !s.isEmpty

/-- One pushed equality condition on a text column: when the filter field is
truthy, the column value must equal it (`conditions.push(eq(col, v))`). -/
def eqCond (f : Option String) (v : String) : Bool :=
  match f with
  | none => true
  | some s => if s.isEmpty then true else v == s

/-- The pushed equality condition on the nullable severity column: SQL
equality is false on NULL. -/
def severityCond (f : Option String) (v : Option Severity) : Bool :=
  match f with
  | none => true
  | some s =>
    if s.isEmpty then true
    else
      match v with
      | none => false
      | some sev => severityText sev == s

/-- The conjunction of conditions pushed to the store by `getAssets`:
configuration id plus any truthy equality filters. -/
def pushedCond (cid : String) (f : AssetFilters) (a : Asset) : Bool :=
  a.configurationId == cid
    && eqCond f.resourceType a.resourceType
    && eqCond f.status (statusText a.status)
    && severityCond f.severity a.severity

/-- The in-memory search pass of `getAssets`: case-insensitive substring
match of the search string against `resourceName` or `resourceId`. -/
def searchMatch (q : String) (a : Asset) : Bool :=
  containsSub (lowerStr a.resourceName) (lowerStr q)
    || containsSub (lowerStr a.resourceId) (lowerStr q)

/-- Ordering used by `getAssets`: by `updatedAt`, descending. -/
def updatedDesc (a b : Asset) : Prop :=
  b.updatedAt ≤ a.updatedAt

instance : DecidableRel updatedDesc := fun a b =>
  inferInstanceAs (Decidable (b.updatedAt ≤ a.updatedAt))

instance : IsTotal Asset updatedDesc :=
  ⟨fun a b => (Nat.le_total b.updatedAt a.updatedAt).imp id id⟩

instance : IsTrans Asset updatedDesc :=
  ⟨fun _ _ _ h1 h2 => Nat.le_trans h2 h1⟩

/-- Shallow embedding of `DatabaseStorage.getAssets`: a conditional scan
restricted to the configuration id with the truthy equality filters pushed
down, ordered by `updatedAt` descending; then, when a truthy `search` is
supplied, an in-memory case-insensitive substring pass over the result. -/
def getAssets (store : List Asset) (cid : String) (f : AssetFilters) : List Asset :=
  let results := List.insertionSort updatedDesc (store.filter (pushedCond cid f))
  match f.search with
  | none => results
  | some q => if q.isEmpty then results else results.filter (searchMatch q)

/-- One prowler-configuration row: owning user, target URL and account
email, one-way password hash, active flag, connection status text,
optional last-sync timestamp, and row timestamps. -/
structure ProwlerConfiguration where
  id : Nat
  userId : String
  prowlerUrl : String
  prowlerEmail : String
  prowlerPasswordHash : String
  isActive : Bool
  connectionStatus : String
  lastSyncAt : Option Nat
  createdAt : Nat
  updatedAt : Nat
deriving DecidableEq, Repr

/-- The payload of a configuration save: URL, email and the already-hashed
password (`InsertProwlerConfiguration` plus `prowlerPasswordHash`). -/
structure InsertConfig where
  prowlerUrl : String
  prowlerEmail : String
  prowlerPasswordHash : String
deriving DecidableEq, Repr

/-- The configurations table together with an id counter and a model
clock supplying `new Date()` / default timestamps. -/
structure ConfigStore where
  rows : List ProwlerConfiguration
  nextId : Nat
  now : Nat
deriving DecidableEq, Repr

/-- The empty configurations table. -/
def emptyConfigStore : ConfigStore :=
  { rows := [], nextId := 0, now := 0 }

/-- Shallow embedding of `DatabaseStorage.getProwlerConfiguration`: the
first row of the scan restricted to `userId` and `isActive = true`. -/
def getProwlerConfiguration (s : ConfigStore) (userId : String) :
    Option ProwlerConfiguration :=
  (s.rows.filter fun c => c.userId == userId && c.isActive).head?

/-- Shallow embedding of `DatabaseStorage.upsertProwlerConfiguration`:
first set `isActive := false` (and refresh `updatedAt`) on every row of
the user, then insert a fresh active row; returns the new row and the
updated store. -/
def upsertProwlerConfiguration (s : ConfigStore) (userId : String)
    (cfg : InsertConfig) : ProwlerConfiguration × ConfigStore :=
  let deactivated := s.rows.map fun c =>
    if c.userId == userId then
      { c with isActive := false, updatedAt := s.now }
    else c
  let newConfig : ProwlerConfiguration :=
    { id := s.nextId
      userId := userId
      prowlerUrl := cfg.prowlerUrl
      prowlerEmail := cfg.prowlerEmail
      prowlerPasswordHash := cfg.prowlerPasswordHash
      isActive := true
      connectionStatus := "disconnected"
      lastSyncAt := none
      createdAt := s.now
      updatedAt := s.now }
  (newConfig, { rows := deactivated ++ [newConfig], nextId := s.nextId + 1, now := s.now })

/-- Apply a sequence of configuration saves, threading the store. -/
def runSaves (s : ConfigStore) (ops : List (String × InsertConfig)) : ConfigStore :=
  ops.foldl (fun st op => (upsertProwlerConfiguration st op.1 op.2).2) s

/-- All rows of one user, in store order. -/
def rowsFor (s : ConfigStore) (userId : String) : List ProwlerConfiguration :=
  s.rows.filter fun c => c.userId == userId

/-- All active rows of one user, in store order. -/
def activeFor (s : ConfigStore) (userId : String) : List ProwlerConfiguration :=
  s.rows.filter fun c => c.userId == userId && c.isActive

/-- The timestamp `getAssetStats` uses for a row:
`lastCheckedAt || updatedAt` (the null check of the JavaScript `||`). -/
def effectiveTime (a : Asset) : Nat :=
  a.lastCheckedAt.getD a.updatedAt

/-- JavaScript `Math.max(...xs)` on a list known to be non-empty
(`[]` is mapped to `0`, a case `getAssetStats` never reaches). -/
def maxOf : List Nat → Nat
  | [] => 0
  | x :: xs => xs.foldl max x

/-- The aggregate record returned by `DatabaseStorage.getAssetStats`. -/
structure AssetStats where
  totalResources : Nat
  criticalIssues : Nat
  compliantResources : Nat
  lastScan : Option Nat
deriving DecidableEq, Repr

/-- Shallow embedding of `DatabaseStorage.getAssetStats`: load every row of
the configuration, count all rows, the critical ones and the compliant
ones, and take the maximum effective timestamp (none when there are no
rows). -/
def getAssetStats (store : List Asset) (cid : String) : AssetStats :=
  let allAssets := store.filter fun a => a.configurationId == cid
  { totalResources := allAssets.length
    criticalIssues := (allAssets.filter fun a => a.severity == some Severity.critical).length
    compliantResources := (allAssets.filter fun a => a.status == AssetStatus.compliant).length
    lastScan :=
      match allAssets with
      | [] => none
      | _ => some (maxOf (allAssets.map effectiveTime)) }

/-- Shallow embedding of `ProwlerService.mapStatus`: empty input is
`unknown`; otherwise lower-case the input and test keyword fragments in
source order (`pass`/`compliant`, then `fail`/`non-compliant`, then
`warn`/`warning`), defaulting to `unknown`. -/
def mapStatus (status : String) : AssetStatus :=
  if status.isEmpty then AssetStatus.unknown
  else
    let lowerStatus := lowerStr status
    if containsSub lowerStatus "pass" || containsSub lowerStatus "compliant"
        || lowerStatus == "pass" then
      AssetStatus.compliant
    else if containsSub lowerStatus "fail" || containsSub lowerStatus "non-compliant"
        || lowerStatus == "fail" then
      AssetStatus.nonCompliant
    else if containsSub lowerStatus "warn" || containsSub lowerStatus "warning" then
      AssetStatus.warning
    else
      AssetStatus.unknown

/-- Shallow embedding of `ProwlerService.mapSeverity`: empty input is
`low`; otherwise lower-case the input and test keyword fragments in source
order (`critical`/`severe`, `high`, `medium`/`moderate`), defaulting to
`low`. -/
def mapSeverity (severity : String) : Severity :=
  if severity.isEmpty then Severity.low
  else
    let lowerSeverity := lowerStr severity
    if containsSub lowerSeverity "critical" || containsSub lowerSeverity "severe" then
      Severity.critical
    else if containsSub lowerSeverity "high" then
      Severity.high
    else if containsSub lowerSeverity "medium" || containsSub lowerSeverity "moderate" then
      Severity.medium
    else
      Severity.low

/-- The two outcomes of the `POST /api/assets/sync` handler: 404 when the
caller has no active configuration, otherwise the stubbed 400 failure with
`requiresReconfiguration: true`. -/
inductive SyncResult
  | noConfiguration
  | requiresReconfiguration
deriving DecidableEq, Repr

/-- HTTP status of a sync outcome. -/
def syncStatus : SyncResult → Nat
  | .noConfiguration => 404
  | .requiresReconfiguration => 400

/-- Shallow embedding of the `POST /api/assets/sync` handler: look up the
caller's active configuration; 404 without one, otherwise the stubbed 400;
the asset table is passed through untouched (no sync is attempted). -/
def syncAssetsHandler (s : ConfigStore) (assetTable : List Asset)
    (userId : String) : SyncResult × List Asset :=
  match getProwlerConfiguration s userId with
  | none => (SyncResult.noConfiguration, assetTable)
  | some _ => (SyncResult.requiresReconfiguration, assetTable)

/-- The per-asset payload of a bulk insert: an asset row minus `id`,
`configurationId` and the store-generated timestamps. -/
structure AssetInput where
  resourceId : String
  resourceName : String
  resourceType : String
  region : Option String
  status : AssetStatus
  severity : Option Severity
  lastCheckedAt : Option Nat
deriving DecidableEq, Repr

/-- Attach the owning configuration id and the store-generated
`updatedAt` to an insert payload. -/
def toAsset (cid : String) (now : Nat) (x : AssetInput) : Asset :=
  { configurationId := cid
    resourceId := x.resourceId
    resourceName := x.resourceName
    resourceType := x.resourceType
    region := x.region
    status := x.status
    severity := x.severity
    lastCheckedAt := x.lastCheckedAt
    updatedAt := now }

/-- Shallow embedding of `DatabaseStorage.upsertAssets`: delete every row
of the configuration, then (when the payload is non-empty) bulk-insert the
payload rows stamped with the configuration id. -/
def upsertAssets (store : List Asset) (cid : String) (now : Nat)
    (xs : List AssetInput) : List Asset :=
  let cleared := store.filter fun a => !(a.configurationId == cid)
  if xs.isEmpty then cleared
  else cleared ++ xs.map (toAsset cid now)

/-- One user row: unique id, username, email, names, optional one-way
password hash, role string (`admin` or `user`) and row timestamps. -/
structure User where
  id : Nat
  username : String
  email : String
  firstName : String
  lastName : String
  passwordHash : Option String
  role : String
  createdAt : Nat
  updatedAt : Nat
deriving DecidableEq, Repr

/-- The users table together with an id counter and a model clock. -/
structure UserStore where
  rows : List User
  nextId : Nat
  now : Nat
deriving DecidableEq, Repr

/-- Shallow embedding of `DatabaseStorage.getUserByUsername`: first row
whose username matches exactly. -/
def getUserByUsername (s : UserStore) (username : String) : Option User :=
  s.rows.find? fun u => u.username == username

/-- Shallow embedding of `DatabaseStorage.getUserByEmail`: first row whose
email matches exactly. -/
def getUserByEmail (s : UserStore) (email : String) : Option User :=
  s.rows.find? fun u => u.email == email

/-- Shallow embedding of `DatabaseStorage.getUser`: lookup by id. -/
def getUser (s : UserStore) (id : Nat) : Option User :=
  s.rows.find? fun u => u.id == id

/-- Modelled from the spec: the one-way password-hashing primitive
(`bcrypt.hash`, an external library, not part of the sources).  Only its
functional nature matters to the claims settled here. -/
def hashPassword (password : String) : String :=
  String.append "hashed:" password

/-- Modelled from the spec: zod's `.email(...)` format check (external
library, not part of the sources) — "a syntactically valid email": one
`@` separating a non-empty local part from a non-empty domain that
contains a dot. -/
def emailFormatOk (e : String) : Bool :=
  match splitOnCL '@' e.toList with
  | [loc, dom] => !loc.isEmpty && !dom.isEmpty && segmentCL ['.'] dom
  | _ => false

/-- The raw body of a `POST /api/register` request.  A `role` member may be
present; the registration schema has no such field, so zod strips it. -/
structure RegisterBody where
  username : String
  email : String
  firstName : String
  lastName : String
  password : String
  role : Option String := none
deriving DecidableEq, Repr

/-- The output of a successful `registerSchema.parse`: username and names
trimmed, email trimmed and lower-cased. -/
structure RegisterData where
  username : String
  email : String
  firstName : String
  lastName : String
  password : String
deriving DecidableEq, Repr

/-- Shallow embedding of `registerSchema.parse`: the min-length and
email-format checks run on the raw fields, then the transforms apply
(trim on username and the names, trim plus lower-case on the email); any
unknown body member such as `role` is discarded. -/
def validateRegister (b : RegisterBody) : Option RegisterData :=
  if 3 ≤ b.username.length
      && !b.email.isEmpty && emailFormatOk b.email
      && !b.firstName.isEmpty && !b.lastName.isEmpty
      && 6 ≤ b.password.length then
    some
      { username := trimStr b.username
        email := lowerStr (trimStr b.email)
        firstName := trimStr b.firstName
        lastName := trimStr b.lastName
        password := b.password }
  else none

/-- Outcome of the `POST /api/register` handler. -/
inductive RegisterResult
  | validationError
  | duplicateUsername
  | duplicateEmail
  | registered (user : User)
deriving DecidableEq, Repr

/-- Shallow embedding of the `POST /api/register` handler: validate, check
username then email for duplicates (each before any insert), hash the
password, and create the user with role fixed to `user`. -/
def registerHandler (s : UserStore) (b : RegisterBody) : RegisterResult × UserStore :=
  match validateRegister b with
  | none => (RegisterResult.validationError, s)
  | some v =>
    match getUserByUsername s v.username with
    | some _ => (RegisterResult.duplicateUsername, s)
    | none =>
      match getUserByEmail s v.email with
      | some _ => (RegisterResult.duplicateEmail, s)
      | none =>
        let newUser : User :=
          { id := s.nextId
            username := v.username
            email := v.email
            firstName := v.firstName
            lastName := v.lastName
            passwordHash := some (hashPassword v.password)
            role := "user"
            createdAt := s.now
            updatedAt := s.now }
        (RegisterResult.registered newUser,
          { rows := s.rows ++ [newUser], nextId := s.nextId + 1, now := s.now })

/-- The raw body of an admin `POST /api/users` request; `role` defaults to
`user` when absent. -/
structure CreateUserBody where
  username : String
  email : String
  firstName : String
  lastName : String
  password : String
  role : Option String := none
deriving DecidableEq, Repr

/-- Shallow embedding of `createUserSchema.parse`: the same min-length and
email-format checks but, unlike `registerSchema`, no trim and no
lower-casing of any field; `role` must be `admin` or `user` when present
and defaults to `user`. -/
def validateCreateUser (b : CreateUserBody) : Option RegisterData × Option String :=
  let roleOk :=
    match b.role with
    | none => true
    | some r => r == "admin" || r == "user"
  if 3 ≤ b.username.length
      && !b.email.isEmpty && emailFormatOk b.email
      && !b.firstName.isEmpty && !b.lastName.isEmpty
      && 6 ≤ b.password.length && roleOk then
    (some
      { username := b.username
        email := b.email
        firstName := b.firstName
        lastName := b.lastName
        password := b.password },
      some (b.role.getD "user"))
  else (none, none)

/-- Outcome of the admin `POST /api/users` handler. -/
inductive CreateUserResult
  | validationError
  | duplicateUsername
  | duplicateEmail
  | created (user : User)
deriving DecidableEq, Repr

/-- Shallow embedding of the admin `POST /api/users` handler: validate
(without normalization), check username then email for duplicates by exact
equality, hash the password and create the user with the validated role. -/
def createUserHandler (s : UserStore) (b : CreateUserBody) : CreateUserResult × UserStore :=
  match validateCreateUser b with
  | (none, _) => (CreateUserResult.validationError, s)
  | (some v, role?) =>
    match getUserByUsername s v.username with
    | some _ => (CreateUserResult.duplicateUsername, s)
    | none =>
      match getUserByEmail s v.email with
      | some _ => (CreateUserResult.duplicateEmail, s)
      | none =>
        let newUser : User :=
          { id := s.nextId
            username := v.username
            email := v.email
            firstName := v.firstName
            lastName := v.lastName
            passwordHash := some (hashPassword v.password)
            role := role?.getD "user"
            createdAt := s.now
            updatedAt := s.now }
        (CreateUserResult.created newUser,
          { rows := s.rows ++ [newUser], nextId := s.nextId + 1, now := s.now })

/-- The serialization of a full user row, key by key, as `res.json(user)`
would emit it (values rendered as text; only the keys matter to the
claims below). -/
def encodeUser (u : User) : List (String × String) :=
  [("id", toString u.id),
   ("username", u.username),
   ("email", u.email),
   ("firstName", u.firstName),
   ("lastName", u.lastName),
   ("passwordHash", u.passwordHash.getD "null"),
   ("role", u.role),
   ("createdAt", toString u.createdAt),
   ("updatedAt", toString u.updatedAt)]

/-- The rest-destructuring `const ... = user` that drops `passwordHash`:
every key of the row except `passwordHash`. -/
def encodePublicUser (u : User) : List (String × String) :=
  (encodeUser u).filter fun kv => !(kv.1 == "passwordHash")

/-- The serialization of a full configuration row, key by key. -/
def encodeConfig (c : ProwlerConfiguration) : List (String × String) :=
  [("id", toString c.id),
   ("userId", c.userId),
   ("prowlerUrl", c.prowlerUrl),
   ("prowlerEmail", c.prowlerEmail),
   ("prowlerPasswordHash", c.prowlerPasswordHash),
   ("isActive", toString c.isActive),
   ("connectionStatus", c.connectionStatus),
   ("lastSyncAt", toString c.lastSyncAt.isSome),
   ("createdAt", toString c.createdAt),
   ("updatedAt", toString c.updatedAt)]

/-- The rest-destructuring that drops `prowlerPasswordHash`. -/
def encodePublicConfig (c : ProwlerConfiguration) : List (String × String) :=
  (encodeConfig c).filter fun kv => !(kv.1 == "prowlerPasswordHash")

/-- A JSON response body: an object, an array of objects, or `null`,
together with the HTTP status. -/
inductive ApiResponse
  | objR (status : Nat) (fields : List (String × String))
  | arrR (status : Nat) (elems : List (List (String × String)))
  | nullR (status : Nat)
deriving DecidableEq, Repr

/-- Every key occurring anywhere in a response body. -/
def keysOf : ApiResponse → List String
  | .objR _ fields => fields.map Prod.fst
  | .arrR _ elems => (elems.map fun fields => fields.map Prod.fst).flatten
  | .nullR _ => []

/-- Shallow embedding of the `GET /api/auth/user` handler: the caller's
row with the password hash stripped, or 404. -/
def getAuthUserHandler (s : UserStore) (uid : Nat) : ApiResponse :=
  match getUser s uid with
  | none => ApiResponse.objR 404 [("message", "User not found")]
  | some u => ApiResponse.objR 200 (encodePublicUser u)

/-- Ordering of `getAllUsers`: by `createdAt`, descending. -/
def createdDesc (a b : User) : Prop :=
  b.createdAt ≤ a.createdAt

instance : DecidableRel createdDesc := fun a b =>
  inferInstanceAs (Decidable (b.createdAt ≤ a.createdAt))

/-- Shallow embedding of `DatabaseStorage.getAllUsers`: every row, ordered
by creation time descending. -/
def getAllUsers (s : UserStore) : List User :=
  List.insertionSort createdDesc s.rows

/-- Shallow embedding of the admin `GET /api/users` handler: every row
with the password hash stripped. -/
def getUsersHandler (s : UserStore) : ApiResponse :=
  ApiResponse.arrR 200 ((getAllUsers s).map encodePublicUser)

/-- Shallow embedding of the `GET /api/prowler/configuration` handler: the
caller's active configuration with the prowler password hash stripped, or
a JSON `null`. -/
def getConfigHandler (cs : ConfigStore) (userId : String) : ApiResponse :=
  match getProwlerConfiguration cs userId with
  | none => ApiResponse.nullR 200
  | some c => ApiResponse.objR 200 (encodePublicConfig c)

/-- Shallow embedding of the `POST /api/prowler/configuration` handler on
an already-validated, already-hashed payload: upsert, then return the new
row with the prowler password hash stripped. -/
def saveConfigHandler (cs : ConfigStore) (userId : String)
    (cfg : InsertConfig) : ApiResponse × ConfigStore :=
  let r := upsertProwlerConfiguration cs userId cfg
  (ApiResponse.objR 200 (encodePublicConfig r.1), r.2)

/-- The response of the admin `POST /api/users` handler: 400 with a
message on validation or duplicate failure, otherwise 201 with the new
row's password hash stripped. -/
def createUserResponse (s : UserStore) (b : CreateUserBody) : ApiResponse :=
  match (createUserHandler s b).1 with
  | CreateUserResult.validationError => ApiResponse.objR 400 [("message", "Invalid input")]
  | CreateUserResult.duplicateUsername => ApiResponse.objR 400 [("message", "Username already exists")]
  | CreateUserResult.duplicateEmail => ApiResponse.objR 400 [("message", "Email already exists")]
  | CreateUserResult.created u => ApiResponse.objR 201 (encodePublicUser u)

/-- The raw body of an admin `PUT /api/users/:id` request: every field
optional. -/
structure UpdateUserBody where
  username : Option String := none
  email : Option String := none
  firstName : Option String := none
  lastName : Option String := none
  password : Option String := none
  role : Option String := none
deriving DecidableEq, Repr

/-- Shallow embedding of `updateUserSchema.parse`: each supplied field
must satisfy its constraint. -/
def validUpdate (b : UpdateUserBody) : Bool :=
  (match b.username with | none => true | some s => 3 ≤ s.length)
    && (match b.email with | none => true | some s => emailFormatOk s)
    && (match b.firstName with | none => true | some s => !s.isEmpty)
    && (match b.lastName with | none => true | some s => !s.isEmpty)
    && (match b.password with | none => true | some s => 6 ≤ s.length)
    && (match b.role with | none => true | some r => r == "admin" || r == "user")

/-- Merge an update body into an existing row, hashing a supplied
password. -/
def applyUpdate (now : Nat) (b : UpdateUserBody) (u : User) : User :=
  { u with
    username := b.username.getD u.username
    email := b.email.getD u.email
    firstName := b.firstName.getD u.firstName
    lastName := b.lastName.getD u.lastName
    passwordHash :=
      match b.password with
      | none => u.passwordHash
      | some p => some (hashPassword p)
    role := b.role.getD u.role
    updatedAt := now }

/-- Shallow embedding of the admin `PUT /api/users/:id` handler: validate,
404 on a missing row, reject a username or email change colliding with a
different row, otherwise update and return the row with the password hash
stripped. -/
def updateUserHandler (s : UserStore) (id : Nat) (b : UpdateUserBody) :
    ApiResponse × UserStore :=
  if !validUpdate b then
    (ApiResponse.objR 400 [("message", "Invalid input")], s)
  else
    match getUser s id with
    | none => (ApiResponse.objR 404 [("message", "User not found")], s)
    | some existing =>
      let usernameClash :=
        match b.username with
        | none => false
        | some un =>
          if un == existing.username then false
          else
            match getUserByUsername s un with
            | some other => !(other.id == id)
            | none => false
      let emailClash :=
        match b.email with
        | none => false
        | some em =>
          if em == existing.email then false
          else
            match getUserByEmail s em with
            | some other => !(other.id == id)
            | none => false
      if usernameClash then
        (ApiResponse.objR 400 [("message", "Username already exists")], s)
      else if emailClash then
        (ApiResponse.objR 400 [("message", "Email already exists")], s)
      else
        let updated := applyUpdate s.now b existing
        (ApiResponse.objR 200 (encodePublicUser updated),
          { s with rows := s.rows.map fun u => if u.id == id then updated else u })

/-- A response carries no password-hash key anywhere in its body. -/
def noHashKeys (r : ApiResponse) : Prop :=
  "passwordHash" ∉ keysOf r ∧ "prowlerPasswordHash" ∉ keysOf r

/-- Claim-side membership predicate, written from the specified contract of
`query(configId, filters)`: the row belongs to the configuration; each
supplied, non-empty equality filter must match (absent or empty means no
constraint); and when a search string is supplied, `resourceName` or
`resourceId` must contain it case-insensitively. -/
def specMatches (cid : String) (f : AssetFilters) (a : Asset) : Bool :=
  a.configurationId == cid
    && (if present f.resourceType then a.resourceType == f.resourceType.getD "" else true)
    && (if present f.status then statusText a.status == f.status.getD "" else true)
    && (if present f.severity then
          (match a.severity with
           | none => false
           | some sev => severityText sev == f.severity.getD "")
        else true)
    && (match f.search with
        | none => true
        | some q =>
          if q.isEmpty then true
          else
            containsSub (lowerStr a.resourceName) (lowerStr q)
              || containsSub (lowerStr a.resourceId) (lowerStr q))

/-- The claim-side predicate splits into the pushed conditions and the
search pass. -/
theorem specMatches_split (cid : String) (f : AssetFilters) (a : Asset) :
    specMatches cid f a
      = (pushedCond cid f a
          && (match f.search with
              | none => true
              | some q => if q.isEmpty then true else searchMatch q a)) := by
  unfold specMatches pushedCond eqCond severityCond present searchMatch
  rcases f with ⟨rt, st, sv, se⟩
  simp only
  cases rt <;> cases st <;> cases sv <;> cases se <;>
    simp [Bool.and_assoc]

/-- C1: for every configuration id and filter record, `getAssets` returns
exactly the asset rows of that configuration satisfying the conjunction of
the supplied equality filters (absent or empty fields impose no
constraint), further restricted by the case-insensitive substring search
over `resourceName` or `resourceId` when one is supplied, and the result
is ordered by last-updated timestamp, descending. -/
theorem getAssets_exact_and_sorted (store : List Asset) (cid : String)
    (f : AssetFilters) :
    (getAssets store cid f).Perm (store.filter (specMatches cid f))
      ∧ (getAssets store cid f).Sorted updatedDesc := by
  have hsort :
      (List.insertionSort updatedDesc (store.filter (pushedCond cid f))).Sorted
        updatedDesc :=
    List.sorted_insertionSort updatedDesc _
  have hperm :
      (List.insertionSort updatedDesc (store.filter (pushedCond cid f))).Perm
        (store.filter (pushedCond cid f)) :=
    List.perm_insertionSort updatedDesc _
  unfold getAssets
  cases hse : f.search with
  | none =>
    simp only
    constructor
    · refine hperm.trans (List.Perm.of_eq ?_)
      refine List.filter_congr fun a _ => ?_
      rw [specMatches_split, hse]
      simp
    · exact hsort
  | some q =>
    simp only
    by_cases hq : q.isEmpty
    · rw [if_pos hq]
      constructor
      · refine hperm.trans (List.Perm.of_eq ?_)
        refine List.filter_congr fun a _ => ?_
        rw [specMatches_split, hse]
        simp [hq]
      · exact hsort
    · rw [if_neg hq]
      constructor
      · refine (hperm.filter (searchMatch q)).trans (List.Perm.of_eq ?_)
        rw [List.filter_filter]
        refine List.filter_congr fun a _ => ?_
        rw [specMatches_split, hse]
        simp [hq, Bool.and_comm]
      · exact List.Pairwise.sublist (List.filter_sublist _) hsort

/-- The lookup is the head of the active rows of the user. -/
theorem getProwlerConfiguration_eq_head (s : ConfigStore) (u : String) :
    getProwlerConfiguration s u = (activeFor s u).head? := rfl

/-- After a save, the saving user's active rows are exactly the new row. -/
theorem activeFor_upsert_self (s : ConfigStore) (u : String) (cfg : InsertConfig) :
    activeFor (upsertProwlerConfiguration s u cfg).2 u
      = [(upsertProwlerConfiguration s u cfg).1] := by
  unfold activeFor upsertProwlerConfiguration
  simp only [List.filter_append]
  rw [List.filter_eq_nil_iff.2, List.nil_append]
  · simp
  · intro c hc
    rcases List.mem_map.1 hc with ⟨c0, _, rfl⟩
    by_cases h0 : c0.userId == u <;> simp [h0]

/-- A save by one user leaves every row set of other users unchanged. -/
theorem rowsFor_upsert_other (s : ConfigStore) (u u' : String)
    (cfg : InsertConfig) (hne : u' ≠ u) :
    rowsFor (upsertProwlerConfiguration s u cfg).2 u'
      = rowsFor s u' := by
  have hmap :
      ∀ l : List ProwlerConfiguration,
        List.filter (fun c => c.userId == u')
            (l.map fun c =>
              if c.userId == u then
                { c with isActive := false, updatedAt := s.now }
              else c)
          = List.filter (fun c => c.userId == u') l := by
    intro l
    induction l with
    | nil => rfl
    | cons c cs ih =>
      simp only [List.map_cons, List.filter_cons]
      by_cases h0 : c.userId == u
      · have hu : c.userId = u := by simpa using h0
        have hf : (u == u') = false := by simpa using Ne.symm hne
        rw [if_pos h0, ih]
        simp [hu, hf]
      · rw [if_neg h0, ih]
  unfold rowsFor upsertProwlerConfiguration
  simp only [List.filter_append, hmap]
  simp [Ne.symm hne]

/-- A save by one user leaves every active-row set of other users
unchanged. -/
theorem activeFor_upsert_other (s : ConfigStore) (u u' : String)
    (cfg : InsertConfig) (hne : u' ≠ u) :
    activeFor (upsertProwlerConfiguration s u cfg).2 u'
      = activeFor s u' := by
  have hmap :
      ∀ l : List ProwlerConfiguration,
        List.filter (fun c => c.userId == u' && c.isActive)
            (l.map fun c =>
              if c.userId == u then
                { c with isActive := false, updatedAt := s.now }
              else c)
          = List.filter (fun c => c.userId == u' && c.isActive) l := by
    intro l
    induction l with
    | nil => rfl
    | cons c cs ih =>
      simp only [List.map_cons, List.filter_cons]
      by_cases h0 : c.userId == u
      · have hu : c.userId = u := by simpa using h0
        have hf : (u == u') = false := by simpa using Ne.symm hne
        rw [if_pos h0, ih]
        simp [hu, hf]
      · rw [if_neg h0, ih]
  unfold activeFor upsertProwlerConfiguration
  simp only [List.filter_append, hmap]
  simp [Ne.symm hne]

/-- Saves by other users never make a configuration appear for a user who
has none. -/
theorem activeFor_runSaves_avoid (u : String) :
    ∀ (ops : List (String × InsertConfig)) (s : ConfigStore),
      activeFor s u = [] → (∀ p ∈ ops, p.1 ≠ u) →
      activeFor (runSaves s ops) u = [] := by
  intro ops
  induction ops with
  | nil => intro s h0 _; exact h0
  | cons p ps ih =>
    intro s h0 h
    show activeFor (runSaves (upsertProwlerConfiguration s p.1 p.2).2 ps) u = []
    refine ih _ ?_ ?_
    · rw [activeFor_upsert_other s p.1 u p.2
        (Ne.symm (h p (List.mem_cons_self p ps)))]
      exact h0
    · intro q hq
      exact h q (List.mem_cons_of_mem p hq)

/-- C2: immediately after every configuration save, the saving user has
exactly one active row (the newly inserted one), every prior row of the
user is deactivated but not deleted, other users' rows are untouched, and
the lookup returns exactly the new active row; a user who never saved
(figuring in no save of the sequence) still has no configuration. -/
theorem upsertProwlerConfiguration_invariant (s : ConfigStore) (u : String)
    (cfg : InsertConfig) :
    activeFor (upsertProwlerConfiguration s u cfg).2 u
        = [(upsertProwlerConfiguration s u cfg).1]
      ∧ getProwlerConfiguration (upsertProwlerConfiguration s u cfg).2 u
        = some (upsertProwlerConfiguration s u cfg).1
      ∧ (upsertProwlerConfiguration s u cfg).2.rows.length = s.rows.length + 1
      ∧ (∀ c ∈ (upsertProwlerConfiguration s u cfg).2.rows.dropLast,
          c.userId = u → c.isActive = false)
      ∧ (∀ c ∈ s.rows, ∃ c' ∈ (upsertProwlerConfiguration s u cfg).2.rows,
          c'.id = c.id ∧ c'.userId = c.userId)
      ∧ (∀ u', u' ≠ u →
          rowsFor (upsertProwlerConfiguration s u cfg).2 u' = rowsFor s u'
            ∧ activeFor (upsertProwlerConfiguration s u cfg).2 u'
                = activeFor s u')
      ∧ (∀ ops : List (String × InsertConfig), (∀ p ∈ ops, p.1 ≠ u) →
          getProwlerConfiguration (runSaves emptyConfigStore ops) u = none) := by
  refine ⟨activeFor_upsert_self s u cfg, ?_, ?_, ?_, ?_, ?_, ?_⟩
  · rw [getProwlerConfiguration_eq_head, activeFor_upsert_self s u cfg]
    rfl
  · unfold upsertProwlerConfiguration
    simp
  · intro c hc hcu
    unfold upsertProwlerConfiguration at hc
    simp only [List.dropLast_concat] at hc
    rcases List.mem_map.1 hc with ⟨c0, _, rfl⟩
    by_cases h0 : c0.userId == u
    · simp [h0]
    · exfalso
      exact (by simpa using h0 : ¬c0.userId = u) (by simpa [h0] using hcu)
  · intro c hc
    refine ⟨if c.userId == u then { c with isActive := false, updatedAt := s.now } else c, ?_, ?_⟩
    · unfold upsertProwlerConfiguration
      exact List.mem_append_left _ (List.mem_map_of_mem _ hc)
    · by_cases h0 : c.userId == u <;> simp [h0]
  · intro u' hne
    exact ⟨rowsFor_upsert_other s u u' cfg hne, activeFor_upsert_other s u u' cfg hne⟩
  · intro ops h
    rw [getProwlerConfiguration_eq_head,
      activeFor_runSaves_avoid u ops emptyConfigStore rfl h]
    rfl

/-- A concrete configuration payload. -/
def sampleInsertConfig : InsertConfig :=
  { prowlerUrl := "https://prowler.example.com"
    prowlerEmail := "ops@example.com"
    prowlerPasswordHash := "hashed:pw123456" }

/-- A store in which user `u1` already saved once. -/
def sampleConfigStore : ConfigStore :=
  (upsertProwlerConfiguration emptyConfigStore "u1" sampleInsertConfig).2

/-- Witness for C2 at a concrete store, user and payload. -/
theorem upsertProwlerConfiguration_invariant_witness :
    activeFor (upsertProwlerConfiguration sampleConfigStore "u1" sampleInsertConfig).2 "u1"
        = [(upsertProwlerConfiguration sampleConfigStore "u1" sampleInsertConfig).1]
      ∧ rowsFor (upsertProwlerConfiguration sampleConfigStore "u1" sampleInsertConfig).2 "u2"
        = rowsFor sampleConfigStore "u2"
      ∧ getProwlerConfiguration (runSaves emptyConfigStore [("u2", sampleInsertConfig)]) "u1"
        = none := by
  have h := upsertProwlerConfiguration_invariant sampleConfigStore "u1" sampleInsertConfig
  refine ⟨h.1, (h.2.2.2.2.2.1 "u2" (by decide)).1,
    h.2.2.2.2.2.2 [("u2", sampleInsertConfig)] ?_⟩
  intro p hp
  have hps : p = ("u2", sampleInsertConfig) := by simpa using hp
  subst hps
  decide

/-- The seed of a maximum fold is a lower bound of the result. -/
theorem le_foldl_max : ∀ (xs : List Nat) (x : Nat), x ≤ xs.foldl max x := by
  intro xs
  induction xs with
  | nil => intro x; exact Nat.le_refl x
  | cons y ys ih =>
    intro x
    exact Nat.le_trans (Nat.le_max_left x y) (ih (max x y))

/-- Every element of the list is bounded by the maximum fold. -/
theorem mem_le_foldl_max :
    ∀ (xs : List Nat) (x : Nat), ∀ y ∈ xs, y ≤ xs.foldl max x := by
  intro xs
  induction xs with
  | nil => intro x y hy; cases hy
  | cons z zs ih =>
    intro x y hy
    rcases List.mem_cons.1 hy with h | h
    · subst h
      exact Nat.le_trans (Nat.le_max_right x y) (le_foldl_max zs (max x y))
    · exact ih (max x z) y h

/-- The maximum fold is the seed or one of the elements. -/
theorem foldl_max_mem :
    ∀ (xs : List Nat) (x : Nat), xs.foldl max x = x ∨ xs.foldl max x ∈ xs := by
  intro xs
  induction xs with
  | nil => intro x; exact Or.inl rfl
  | cons y ys ih =>
    intro x
    rcases ih (max x y) with h | h
    · rcases max_choice x y with hm | hm
      · exact Or.inl (by rw [List.foldl_cons, h, hm])
      · exact Or.inr (List.mem_cons.2 (Or.inl (by rw [List.foldl_cons, h, hm])))
    · exact Or.inr (List.mem_cons.2 (Or.inr h))

/-- `maxOf` of a non-empty list is attained. -/
theorem maxOf_mem (l : List Nat) (h : l ≠ []) : maxOf l ∈ l := by
  cases l with
  | nil => exact absurd rfl h
  | cons x xs =>
    rcases foldl_max_mem xs x with h0 | h0
    · exact List.mem_cons.2 (Or.inl (by simpa [maxOf] using h0))
    · exact List.mem_cons.2 (Or.inr (by simpa [maxOf] using h0))

/-- `maxOf` bounds every element of the list. -/
theorem le_maxOf (l : List Nat) : ∀ x ∈ l, x ≤ maxOf l := by
  cases l with
  | nil => intro x hx; cases hx
  | cons y ys =>
    intro x hx
    rcases List.mem_cons.1 hx with h | h
    · subst h
      exact le_foldl_max ys x
    · exact mem_le_foldl_max ys y x h

/-- C3: `getAssetStats` returns the count of the configuration's rows, the
count of its critical rows, the count of its compliant rows, and as
`lastScan` the maximum over its rows of `lastCheckedAt`-else-`updatedAt`
(none exactly when the configuration has no rows; in particular all-zero
with no timestamp on zero assets). -/
theorem getAssetStats_spec (store : List Asset) (cid : String) :
    (getAssetStats store cid).totalResources
        = store.countP (fun a => a.configurationId == cid)
      ∧ (getAssetStats store cid).criticalIssues
        = store.countP (fun a =>
            a.configurationId == cid && a.severity == some Severity.critical)
      ∧ (getAssetStats store cid).compliantResources
        = store.countP (fun a =>
            a.configurationId == cid && a.status == AssetStatus.compliant)
      ∧ ((∀ a ∈ store, ¬a.configurationId = cid) →
          getAssetStats store cid
            = { totalResources := 0, criticalIssues := 0,
                compliantResources := 0, lastScan := none })
      ∧ (∀ m, (getAssetStats store cid).lastScan = some m →
          (∃ a ∈ store, a.configurationId = cid ∧ effectiveTime a = m)
            ∧ ∀ a ∈ store, a.configurationId = cid → effectiveTime a ≤ m)
      ∧ ((getAssetStats store cid).lastScan = none ↔
          ∀ a ∈ store, ¬a.configurationId = cid) := by
  refine ⟨?_, ?_, ?_, ?_, ?_, ?_⟩
  · unfold getAssetStats
    simp [List.countP_eq_length_filter]
  · unfold getAssetStats
    simp only [List.countP_eq_length_filter, List.filter_filter]
    congr 1
    exact List.filter_congr fun a _ => Bool.and_comm _ _
  · unfold getAssetStats
    simp only [List.countP_eq_length_filter, List.filter_filter]
    congr 1
    exact List.filter_congr fun a _ => Bool.and_comm _ _
  · intro h
    unfold getAssetStats
    rw [List.filter_eq_nil_iff.2 (by simpa using h)]
    rfl
  · intro m hm
    unfold getAssetStats at hm
    simp only at hm
    cases hl : store.filter (fun a => a.configurationId == cid) with
    | nil => rw [hl] at hm; cases hm
    | cons y ys =>
      rw [hl] at hm
      have hmv : m = maxOf ((y :: ys).map effectiveTime) := by
        cases hm; rfl
      constructor
      · have hmem : maxOf ((y :: ys).map effectiveTime) ∈ (y :: ys).map effectiveTime :=
          maxOf_mem _ (by simp)
        rcases List.mem_map.1 hmem with ⟨a, ha, hav⟩
        have ha' : a ∈ store.filter (fun a => a.configurationId == cid) := by
          rw [hl]; exact ha
        have hmemf := List.mem_filter.1 ha'
        exact ⟨a, hmemf.1, by simpa using hmemf.2, by rw [hmv, ← hav]⟩
      · intro a ha hacid
        have haf : a ∈ store.filter (fun a => a.configurationId == cid) :=
          List.mem_filter.2 ⟨ha, by simpa using hacid⟩
        rw [hl] at haf
        have : effectiveTime a ∈ (y :: ys).map effectiveTime :=
          List.mem_map.2 ⟨a, haf, rfl⟩
        rw [hmv]
        exact le_maxOf _ _ this
  · unfold getAssetStats
    simp only
    cases hl : store.filter (fun a => a.configurationId == cid) with
    | nil =>
      simp only
      constructor
      · intro _ a ha hacid
        have : a ∈ store.filter (fun a => a.configurationId == cid) :=
          List.mem_filter.2 ⟨ha, by simpa using hacid⟩
        rw [hl] at this
        cases this
      · intro _; trivial
    | cons y ys =>
      simp only
      constructor
      · intro h; cases h
      · intro h
        have : y ∈ store.filter (fun a => a.configurationId == cid) := by
          rw [hl]; exact List.mem_cons_self y ys
        have hy := List.mem_filter.1 this
        exact absurd (by simpa using hy.2) (h y hy.1)

/-- A concrete asset of configuration `c1`: compliant yet critical, last
checked at 50. -/
def sampleAsset1 : Asset :=
  { configurationId := "c1", resourceId := "arn:aws:s3:::one"
    resourceName := "Bucket One", resourceType := "s3"
    region := some "us-east-1", status := AssetStatus.compliant
    severity := some Severity.critical, lastCheckedAt := some 50
    updatedAt := 10 }

/-- A concrete asset of configuration `c1` with no severity, never
checked, updated at 20. -/
def sampleAsset2 : Asset :=
  { configurationId := "c1", resourceId := "arn:aws:ec2:::two"
    resourceName := "Instance Two", resourceType := "ec2"
    region := none, status := AssetStatus.nonCompliant
    severity := none, lastCheckedAt := none, updatedAt := 20 }

/-- A concrete asset of a different configuration `c2`. -/
def sampleAsset3 : Asset :=
  { configurationId := "c2", resourceId := "arn:aws:s3:::three"
    resourceName := "Bucket Three", resourceType := "s3"
    region := some "eu-west-1", status := AssetStatus.warning
    severity := some Severity.low, lastCheckedAt := some 99
    updatedAt := 30 }

/-- Witness for C3 on an empty store and on a concrete three-asset store. -/
theorem getAssetStats_spec_witness :
    getAssetStats [] "c1"
        = { totalResources := 0, criticalIssues := 0,
            compliantResources := 0, lastScan := none }
      ∧ (∃ a ∈ [sampleAsset1, sampleAsset2, sampleAsset3],
            a.configurationId = "c1" ∧ effectiveTime a = 50)
      ∧ ∀ a ∈ [sampleAsset1, sampleAsset2, sampleAsset3],
          a.configurationId = "c1" → effectiveTime a ≤ 50 := by
  have h0 := (getAssetStats_spec [] "c1").2.2.2.1 (by simp)
  have h1 :=
    (getAssetStats_spec [sampleAsset1, sampleAsset2, sampleAsset3] "c1").2.2.2.2.1
      50 (by decide)
  exact ⟨h0, h1.1, h1.2⟩

/-- C4: evaluating the normalization at the decisive inputs.  The upstream
string `non-compliant` is mapped to `compliant`, because the
`compliant`-fragment test runs first and `non-compliant` contains
`compliant` as a substring — the `non-compliant` branch of the source is
unreachable.  The other keyword mappings behave as described. -/
theorem mapStatus_nonCompliant_evaluation :
    mapStatus "non-compliant" = AssetStatus.compliant
      ∧ mapStatus "non-compliant" ≠ AssetStatus.nonCompliant
      ∧ mapStatus "FAIL" = AssetStatus.nonCompliant
      ∧ mapStatus "PASS" = AssetStatus.compliant
      ∧ mapStatus "warn" = AssetStatus.warning
      ∧ mapStatus "mystery" = AssetStatus.unknown
      ∧ mapSeverity "Severe" = Severity.critical
      ∧ mapSeverity "CRITICAL" = Severity.critical
      ∧ mapSeverity "high" = Severity.high
      ∧ mapSeverity "moderate" = Severity.medium
      ∧ mapSeverity "mystery" = Severity.low := by
  decide

/-- C5 counterexample: a caller with no stored configuration receives 404
from the sync endpoint, not the claimed unconditional 400. -/
theorem syncAssets_counterexample :
    syncStatus (syncAssetsHandler emptyConfigStore [] "u1").1 = 404
      ∧ ¬syncStatus (syncAssetsHandler emptyConfigStore [] "u1").1 = 400 := by
  decide

/-- C5 (amended): a caller holding an active configuration always receives
the stubbed 400 `requiresReconfiguration` failure, a caller with none
receives 404, and in either case the asset table is untouched — no sync is
ever attempted and the endpoint never succeeds. -/
theorem syncAssetsHandler_spec (s : ConfigStore) (tbl : List Asset) (u : String) :
    (∀ c, getProwlerConfiguration s u = some c →
        (syncAssetsHandler s tbl u).1 = SyncResult.requiresReconfiguration
          ∧ syncStatus (syncAssetsHandler s tbl u).1 = 400)
      ∧ (getProwlerConfiguration s u = none →
          syncStatus (syncAssetsHandler s tbl u).1 = 404)
      ∧ (syncAssetsHandler s tbl u).2 = tbl := by
  unfold syncAssetsHandler
  cases h : getProwlerConfiguration s u with
  | none =>
    refine ⟨?_, fun _ => rfl, rfl⟩
    intro c hc
    cases hc
  | some c0 =>
    refine ⟨fun c _ => ⟨rfl, rfl⟩, ?_, rfl⟩
    intro hc
    cases hc

/-- Witness for C5 at a store holding an active configuration for `u1`
and at the empty store. -/
theorem syncAssetsHandler_spec_witness :
    (syncAssetsHandler sampleConfigStore [] "u1").1
        = SyncResult.requiresReconfiguration
      ∧ syncStatus (syncAssetsHandler emptyConfigStore [] "u2").1 = 404 := by
  have h1 := (syncAssetsHandler_spec sampleConfigStore [] "u1").1
    ((upsertProwlerConfiguration emptyConfigStore "u1" sampleInsertConfig).1)
    (by decide)
  have h2 := (syncAssetsHandler_spec emptyConfigStore [] "u2").2.1 (by decide)
  exact ⟨h1.1, h2⟩

/-- C6: after a bulk replacement the store holds exactly as many rows for
the configuration as the payload has, and every other configuration's rows
are untouched. -/
theorem upsertAssets_spec (store : List Asset) (cid : String) (now : Nat)
    (xs : List AssetInput) :
    ((upsertAssets store cid now xs).filter
        (fun a => a.configurationId == cid)).length = xs.length
      ∧ ∀ c', c' ≠ cid →
          (upsertAssets store cid now xs).filter
              (fun a => a.configurationId == c')
            = store.filter (fun a => a.configurationId == c') := by
  have hnil :
      (store.filter (fun a => !(a.configurationId == cid))).filter
          (fun a => a.configurationId == cid) = [] := by
    rw [List.filter_filter]
    refine List.filter_eq_nil_iff.2 fun a _ => ?_
    by_cases h : a.configurationId == cid <;> simp [h]
  have hother :
      ∀ c', c' ≠ cid →
        (store.filter (fun a => !(a.configurationId == cid))).filter
            (fun a => a.configurationId == c')
          = store.filter (fun a => a.configurationId == c') := by
    intro c' hc'
    rw [List.filter_filter]
    refine List.filter_congr fun a _ => ?_
    by_cases h : a.configurationId == c'
    · have ha : a.configurationId = c' := by simpa using h
      simp [h, ha, hc']
    · simp [h]
  unfold upsertAssets
  by_cases hxs : xs.isEmpty
  · have hx : xs = [] := by
      cases xs with
      | nil => rfl
      | cons y ys => cases hxs
    rw [if_pos hxs, hx]
    exact ⟨by rw [hnil]; rfl, hother⟩
  · rw [if_neg hxs]
    have hmapfull :
        List.filter (fun a => a.configurationId == cid)
            (List.map (toAsset cid now) xs)
          = List.map (toAsset cid now) xs := by
      refine List.filter_eq_self.2 fun b hb => ?_
      rcases List.mem_map.1 hb with ⟨x, _, rfl⟩
      simp [toAsset]
    constructor
    · rw [List.filter_append, hnil, List.nil_append, hmapfull, List.length_map]
    · intro c' hc'
      have hmap0 :
          List.filter (fun a => a.configurationId == c')
              (List.map (toAsset cid now) xs) = [] := by
        refine List.filter_eq_nil_iff.2 fun b hb => ?_
        rcases List.mem_map.1 hb with ⟨x, _, rfl⟩
        simpa [toAsset] using hc'.symm
      rw [List.filter_append, hmap0, List.append_nil, hother c' hc']

/-- A concrete bulk-insert payload row. -/
def sampleAssetInput : AssetInput :=
  { resourceId := "arn:aws:s3:::new", resourceName := "New Bucket"
    resourceType := "s3", region := none, status := AssetStatus.unknown
    severity := none, lastCheckedAt := none }

/-- Witness for C6 at a concrete store and one-element payload. -/
theorem upsertAssets_spec_witness :
    ((upsertAssets [sampleAsset1, sampleAsset3] "c1" 100
        [sampleAssetInput]).filter
          (fun a => a.configurationId == "c1")).length = 1
      ∧ (upsertAssets [sampleAsset1, sampleAsset3] "c1" 100
            [sampleAssetInput]).filter (fun a => a.configurationId == "c2")
          = [sampleAsset1, sampleAsset3].filter
              (fun a => a.configurationId == "c2") := by
  have h := upsertAssets_spec [sampleAsset1, sampleAsset3] "c1" 100
    [sampleAssetInput]
  exact ⟨h.1, h.2 "c2" (by decide)⟩

/-- A validated registration whose username is already taken fails with
the duplicate-username error and leaves the store untouched. -/
theorem registerHandler_dupUsername (s : UserStore) (b : RegisterBody)
    (v : RegisterData) (hv : validateRegister b = some v)
    (hex : ∃ u ∈ s.rows, u.username = v.username) :
    registerHandler s b = (RegisterResult.duplicateUsername, s) := by
  have hsome : (getUserByUsername s v.username).isSome := by
    unfold getUserByUsername
    rw [List.find?_isSome]
    rcases hex with ⟨u, hu, he⟩
    exact ⟨u, hu, by simpa using he⟩
  rcases Option.isSome_iff_exists.1 hsome with ⟨w, hw⟩
  simp [registerHandler, hv, hw]

/-- A validated registration with a fresh username but an already-taken
email fails with the duplicate-email error and leaves the store
untouched. -/
theorem registerHandler_dupEmail (s : UserStore) (b : RegisterBody)
    (v : RegisterData) (hv : validateRegister b = some v)
    (hnone : getUserByUsername s v.username = none)
    (hex : ∃ u ∈ s.rows, u.email = v.email) :
    registerHandler s b = (RegisterResult.duplicateEmail, s) := by
  have hsome : (getUserByEmail s v.email).isSome := by
    unfold getUserByEmail
    rw [List.find?_isSome]
    rcases hex with ⟨u, hu, he⟩
    exact ⟨u, hu, by simpa using he⟩
  rcases Option.isSome_iff_exists.1 hsome with ⟨w, hw⟩
  simp [registerHandler, hv, hnone, hw]

/-- C7: a registration whose validated username or email equals that of an
existing user fails with the corresponding duplicate error; the user
table is unchanged, so no row is created and existing lookups are
unaffected. -/
theorem registration_duplicate_no_insert (s : UserStore) (b : RegisterBody)
    (v : RegisterData) (hv : validateRegister b = some v) :
    ((∃ u ∈ s.rows, u.username = v.username) →
        registerHandler s b = (RegisterResult.duplicateUsername, s))
      ∧ (getUserByUsername s v.username = none →
          (∃ u ∈ s.rows, u.email = v.email) →
          registerHandler s b = (RegisterResult.duplicateEmail, s))
      ∧ (((∃ u ∈ s.rows, u.username = v.username)
            ∨ (∃ u ∈ s.rows, u.email = v.email)) →
          (registerHandler s b).2 = s) := by
  refine ⟨registerHandler_dupUsername s b v hv,
    registerHandler_dupEmail s b v hv, ?_⟩
  intro hor
  rcases hor with hex | hex
  · rw [registerHandler_dupUsername s b v hv hex]
  · cases hu : getUserByUsername s v.username with
    | none => rw [registerHandler_dupEmail s b v hv hu hex]
    | some w =>
      have hex' : ∃ u ∈ s.rows, u.username = v.username := by
        refine ⟨w, List.mem_of_find?_eq_some hu, ?_⟩
        simpa using List.find?_some hu
      rw [registerHandler_dupUsername s b v hv hex']

/-- The empty users table. -/
def emptyUserStore : UserStore :=
  { rows := [], nextId := 0, now := 0 }

/-- A concrete first registration request. -/
def aliceBody : RegisterBody :=
  { username := "alice", email := "alice@example.com"
    firstName := "Alice", lastName := "Smith", password := "secret1" }

/-- The store after Alice registered. -/
def storeWithAlice : UserStore :=
  (registerHandler emptyUserStore aliceBody).2

/-- A second request reusing Alice's username with a fresh email. -/
def aliceUsernameBody : RegisterBody :=
  { username := "alice", email := "bob@example.com"
    firstName := "Bob", lastName := "Jones", password := "secret2" }

/-- The validated form of `aliceUsernameBody`. -/
def aliceUsernameData : RegisterData :=
  { username := "alice", email := "bob@example.com"
    firstName := "Bob", lastName := "Jones", password := "secret2" }

/-- A second request reusing Alice's email with a fresh username. -/
def aliceEmailBody : RegisterBody :=
  { username := "bob", email := "alice@example.com"
    firstName := "Bob", lastName := "Jones", password := "secret2" }

/-- The validated form of `aliceEmailBody`. -/
def aliceEmailData : RegisterData :=
  { username := "bob", email := "alice@example.com"
    firstName := "Bob", lastName := "Jones", password := "secret2" }

/-- Witness for C7: both duplicate registrations fail against the concrete
store holding Alice, leaving the store unchanged. -/
theorem registration_duplicate_witness :
    registerHandler storeWithAlice aliceUsernameBody
        = (RegisterResult.duplicateUsername, storeWithAlice)
      ∧ registerHandler storeWithAlice aliceEmailBody
        = (RegisterResult.duplicateEmail, storeWithAlice)
      ∧ (registerHandler storeWithAlice aliceUsernameBody).2 = storeWithAlice := by
  have h1 := registration_duplicate_no_insert storeWithAlice aliceUsernameBody
    aliceUsernameData (by decide)
  have h2 := registration_duplicate_no_insert storeWithAlice aliceEmailBody
    aliceEmailData (by decide)
  exact ⟨h1.1 (by decide), h2.2.1 (by decide) (by decide),
    h1.2.2 (Or.inl (by decide))⟩

/-- C9: whenever registration succeeds the created row's role is `user`
and it is appended to the table, and the handler is entirely insensitive
to any `role` member of the request body (the schema discards it). -/
theorem registration_role_always_user (s : UserStore) (b : RegisterBody)
    (u : User) (h : (registerHandler s b).1 = RegisterResult.registered u) :
    u.role = "user"
      ∧ (registerHandler s b).2.rows = s.rows ++ [u]
      ∧ ∀ r : Option String,
          registerHandler s { b with role := r } = registerHandler s b := by
  refine ?_
  cases hval : validateRegister b with
  | none =>
    rw [registerHandler] at h
    rw [hval] at h
    cases h
  | some v =>
    cases hu : getUserByUsername s v.username with
    | some w =>
      rw [registerHandler] at h
      rw [hval] at h
      simp only [hu] at h
      cases h
    | none =>
      cases he : getUserByEmail s v.email with
      | some w =>
        rw [registerHandler] at h
        rw [hval] at h
        simp only [hu, he] at h
        cases h
      | none =>
        rw [registerHandler] at h
        rw [hval] at h
        simp only [hu, he] at h
        have hvu :
            ({ id := s.nextId, username := v.username, email := v.email,
               firstName := v.firstName, lastName := v.lastName,
               passwordHash := some (hashPassword v.password), role := "user",
               createdAt := s.now, updatedAt := s.now } : User) = u := by
          cases h
          rfl
        refine ⟨by rw [← hvu], ?_, fun r => rfl⟩
        rw [registerHandler, hval]
        simp only [hu, he]
        rw [hvu]

/-- A registration body that tries to smuggle in `role: admin`. -/
def adminAttemptBody : RegisterBody :=
  { username := "mallory", email := "mallory@example.com"
    firstName := "Mal", lastName := "Ory", password := "secret1"
    role := some "admin" }

/-- The row actually created for `adminAttemptBody` on the empty store. -/
def malloryUser : User :=
  { id := 0, username := "mallory", email := "mallory@example.com"
    firstName := "Mal", lastName := "Ory"
    passwordHash := some (hashPassword "secret1"), role := "user"
    createdAt := 0, updatedAt := 0 }

/-- Witness for C9: the registration carrying `role: admin` succeeds and
the created row's role is `user`. -/
theorem registration_role_always_user_witness :
    (registerHandler emptyUserStore adminAttemptBody).1
        = RegisterResult.registered malloryUser
      ∧ malloryUser.role = "user" := by
  have h : (registerHandler emptyUserStore adminAttemptBody).1
      = RegisterResult.registered malloryUser := by decide
  exact ⟨h,
    (registration_role_always_user emptyUserStore adminAttemptBody malloryUser h).1⟩

/-- An admin-created account whose stored email contains upper case. -/
def storedAdmin : User :=
  { id := 0, username := "admin", email := "admin@example.com"
    firstName := "Ada", lastName := "Min"
    passwordHash := some (hashPassword "rootpw1"), role := "admin"
    createdAt := 0, updatedAt := 0 }

/-- A store holding only `storedAdmin`. -/
def adminStore : UserStore :=
  { rows := [storedAdmin], nextId := 1, now := 5 }

/-- An admin creation request whose email differs from the stored
`admin@example.com` only in letter case. -/
def caseVariantBody : CreateUserBody :=
  { username := "admin2", email := "Admin@example.com"
    firstName := "Bea", lastName := "Min", password := "secret1"
    role := some "user" }

/-- The row created for `caseVariantBody` against `adminStore`. -/
def caseVariantCreated : User :=
  { id := 1, username := "admin2", email := "Admin@example.com"
    firstName := "Bea", lastName := "Min"
    passwordHash := some (hashPassword "secret1"), role := "user"
    createdAt := 5, updatedAt := 5 }

/-- C10: the admin user-creation duplicate check compares emails by exact
string equality: a request whose email differs from a stored email only in
case passes the check and a second user is created — while public
registration would have normalized the same email to lower case. -/
theorem createUser_email_case_sensitivity :
    (∃ u, (createUserHandler adminStore caseVariantBody).1
          = CreateUserResult.created u
        ∧ lowerStr u.email = lowerStr storedAdmin.email
        ∧ u.email ≠ storedAdmin.email)
      ∧ (createUserHandler adminStore caseVariantBody).2.rows.length = 2
      ∧ Option.map RegisterData.email
          (validateRegister
            { username := "admin2", email := "Admin@example.com"
              firstName := "Bea", lastName := "Min", password := "secret1" })
        = some "admin@example.com" := by
  refine ⟨⟨caseVariantCreated, ?_, ?_, ?_⟩, ?_, ?_⟩
  · decide
  · decide
  · decide
  · decide
  · decide

/-- The keys of a publicly encoded user row. -/
theorem encodePublicUser_keys (u : User) :
    (encodePublicUser u).map Prod.fst
      = ["id", "username", "email", "firstName", "lastName", "role",
         "createdAt", "updatedAt"] := rfl

/-- The keys of a publicly encoded configuration row. -/
theorem encodePublicConfig_keys (c : ProwlerConfiguration) :
    (encodePublicConfig c).map Prod.fst
      = ["id", "userId", "prowlerUrl", "prowlerEmail", "isActive",
         "connectionStatus", "lastSyncAt", "createdAt", "updatedAt"] := rfl

/-- A stripped user object carries no hash key. -/
theorem noHashKeys_objR_public_user (st : Nat) (u : User) :
    noHashKeys (ApiResponse.objR st (encodePublicUser u)) := by
  unfold noHashKeys
  simp only [keysOf]
  rw [encodePublicUser_keys]
  exact ⟨by decide, by decide⟩

/-- A stripped configuration object carries no hash key. -/
theorem noHashKeys_objR_public_config (st : Nat) (c : ProwlerConfiguration) :
    noHashKeys (ApiResponse.objR st (encodePublicConfig c)) := by
  unfold noHashKeys
  simp only [keysOf]
  rw [encodePublicConfig_keys]
  exact ⟨by decide, by decide⟩

/-- A bare message object carries no hash key. -/
theorem noHashKeys_message (st : Nat) (msg : String) :
    noHashKeys (ApiResponse.objR st [("message", msg)]) := by
  unfold noHashKeys
  simp only [keysOf, List.map_cons, List.map_nil]
  exact ⟨by decide, by decide⟩

/-- A null body carries no hash key. -/
theorem noHashKeys_nullR (st : Nat) :
    noHashKeys (ApiResponse.nullR st) := by
  unfold noHashKeys
  simp only [keysOf]
  exact ⟨by decide, by decide⟩

/-- C8: no response of the current-user, user-list, user-create,
user-update, configuration-get or configuration-save endpoint ever carries
a `passwordHash` or `prowlerPasswordHash` key anywhere in its body. -/
theorem responses_never_contain_password_hash :
    (∀ (s : UserStore) (uid : Nat), noHashKeys (getAuthUserHandler s uid))
      ∧ (∀ s : UserStore, noHashKeys (getUsersHandler s))
      ∧ (∀ (s : UserStore) (b : CreateUserBody),
          noHashKeys (createUserResponse s b))
      ∧ (∀ (s : UserStore) (uid : Nat) (b : UpdateUserBody),
          noHashKeys (updateUserHandler s uid b).1)
      ∧ (∀ (cs : ConfigStore) (u : String), noHashKeys (getConfigHandler cs u))
      ∧ (∀ (cs : ConfigStore) (u : String) (cfg : InsertConfig),
          noHashKeys (saveConfigHandler cs u cfg).1) := by
  refine ⟨?_, ?_, ?_, ?_, ?_, ?_⟩
  · intro s uid
    unfold getAuthUserHandler
    cases getUser s uid with
    | none => exact noHashKeys_message _ _
    | some u => exact noHashKeys_objR_public_user _ _
  · intro s
    unfold getUsersHandler
    constructor <;>
    · intro hmem
      simp only [keysOf] at hmem
      rw [List.mem_flatten] at hmem
      rcases hmem with ⟨l, hl, hk⟩
      rcases List.mem_map.1 hl with ⟨fs, hfs, rfl⟩
      rcases List.mem_map.1 hfs with ⟨u, _, rfl⟩
      rw [encodePublicUser_keys] at hk
      revert hk
      decide
  · intro s b
    unfold createUserResponse
    cases (createUserHandler s b).1 with
    | validationError => exact noHashKeys_message _ _
    | duplicateUsername => exact noHashKeys_message _ _
    | duplicateEmail => exact noHashKeys_message _ _
    | created u => exact noHashKeys_objR_public_user _ _
  · intro s uid b
    unfold updateUserHandler
    split
    · exact noHashKeys_message _ _
    · cases getUser s uid with
      | none => exact noHashKeys_message _ _
      | some existing =>
        simp only
        split
        · exact noHashKeys_message _ _
        · split
          · exact noHashKeys_message _ _
          · exact noHashKeys_objR_public_user _ _
  · intro cs u
    unfold getConfigHandler
    cases getProwlerConfiguration cs u with
    | none => exact noHashKeys_nullR _
    | some c => exact noHashKeys_objR_public_config _ _
  · intro cs u cfg
    exact noHashKeys_objR_public_config _ _
